import Mathlib

/-!
Verification of the project-to-employee matching subsystem of the free-tms
talent-management application.

The numbers of the original TypeScript/Python code are IEEE doubles; they are
embedded here as exact rationals (`ℚ`), the standard idealisation for
specifications phrased "within floating tolerance".

Frontend definitions are translated from
`src/frontend/src/pages/ProjectMatching.tsx`; the backend matching engine is
not present in the sources, so its parts are modelled from the spec and each
such definition is marked `Modelled from the spec:` in its doc comment.
-/

set_option maxRecDepth 100000

namespace FreeTMS

/-- The weight state of the matching page: three importance coefficients
(`weights` state in ProjectMatching.tsx, lines 81-85). -/
structure Weights where
  skill : ℚ
  experience : ℚ
  availability : ℚ
deriving DecidableEq, Repr

/-- The initial `weights` React state: `{ skill: 0.5, experience: 0.3,
availability: 0.2 }` (ProjectMatching.tsx lines 81-85).  The spec calls this
triple the documented default weights. -/
def defaultWeights : Weights := ⟨1/2, 3/10, 1/5⟩

/-- The sum `newWeights.skill + newWeights.experience + newWeights.availability`
computed by `handleWeightChange`. -/
def Weights.sum (w : Weights) : ℚ :=
  w.skill + w.experience + w.availability

/-- Which of the three sliders was moved: the `type` argument of
`handleWeightChange` (`"skill" | "experience" | "availability"`). -/
inductive WeightKind where
  | skill
  | experience
  | availability
deriving DecidableEq, Repr

/-- `{ ...weights, [type]: value[0] }`: replace one component of the weight
state by the new slider value. -/
def Weights.update (w : Weights) : WeightKind → ℚ → Weights
  | .skill, v => { w with skill := v }
  | .experience, v => { w with experience := v }
  | .availability, v => { w with availability := v }

/-- The normalisation step of `handleWeightChange` (ProjectMatching.tsx lines
120-126): compute `total`; if `total > 0` divide each component by `total`,
otherwise leave the triple unchanged (the code has no `else` branch). -/
def normalizeWeights (w : Weights) : Weights :=
  let total := w.skill + w.experience + w.availability
  if total > 0 then
    ⟨w.skill / total, w.experience / total, w.availability / total⟩
  else
    w

/-- `handleWeightChange` (ProjectMatching.tsx lines 117-129): overwrite the
moved component with the slider value, then renormalise.  `v` is `value[0]`. -/
def handleWeightChange (w : Weights) (t : WeightKind) (v : ℚ) : Weights :=
  normalizeWeights (w.update t v)

/-- `getScoreColor` (ProjectMatching.tsx lines 160-165): the CSS text colour
class for a total score. -/
def getScoreColor (score : ℚ) : String :=
  if score ≥ 70 then "text-green-600"
  else if score ≥ 50 then "text-yellow-600"
  else if score ≥ 30 then "text-orange-600"
  else "text-red-600"

/-- The visible payload of the `<Badge>` element returned by `getScoreBadge`:
its `className` and its text label. -/
structure ScoreBadge where
  className : String
  label : String
deriving DecidableEq, Repr

/-- `getScoreBadge` (ProjectMatching.tsx lines 167-172): the tier badge
rendered for a total score. -/
def getScoreBadge (score : ℚ) : ScoreBadge :=
  if score ≥ 70 then ⟨"bg-green-100 text-green-800", "優秀"⟩
  else if score ≥ 50 then ⟨"bg-yellow-100 text-yellow-800", "良好"⟩
  else if score ≥ 30 then ⟨"bg-orange-100 text-orange-800", "可"⟩
  else ⟨"bg-red-100 text-red-800", "不適"⟩

/-- The four recommendation tiers of the spec (§4.6). -/
inductive Tier where
  | excellent
  | good
  | fair
  | poor
deriving DecidableEq, Repr

/-- The tier denoted by a `getScoreColor` colour class: green = excellent,
yellow = good, orange = fair, red = poor. -/
def tierOfColor : String → Option Tier
  | "text-green-600" => some .excellent
  | "text-yellow-600" => some .good
  | "text-orange-600" => some .fair
  | "text-red-600" => some .poor
  | _ => none

/-- The tier denoted by a badge label: 優秀 = excellent, 良好 = good,
可 = fair, 不適 = poor. -/
def tierOfLabel : String → Option Tier
  | "優秀" => some .excellent
  | "良好" => some .good
  | "可" => some .fair
  | "不適" => some .poor
  | _ => none

/-- The tier a score is displayed as: the tier denoted by the label of the
badge `getScoreBadge` renders for it. -/
def badgeTier (s : ℚ) : Option Tier :=
  tierOfLabel (getScoreBadge s).label

/-- The project summary carried in a `MatchingResult` (`project` field of the
`MatchingResult` interface, ProjectMatching.tsx lines 50-54). -/
structure Project where
  id : ℕ
  name : String
  required_skills : List String
deriving DecidableEq, Repr

/-- A candidate employee together with its three sub-scores, the shape the
engine scores (`EmployeeRecommendation`'s `employee` identity and the three
sub-scores of its `scores` field, ProjectMatching.tsx lines 30-47). -/
structure Candidate where
  id : ℕ
  name : String
  skill_match : ℚ
  experience : ℚ
  availability : ℚ
deriving DecidableEq, Repr

/-- Modelled from the spec: the backend CandidateScorer (§4.5) is not in the
sources; per the spec, `total = skill_weight×skill_match +
experience_weight×experience + availability_weight×availability`. -/
def totalScore (w : Weights) (c : Candidate) : ℚ :=
  w.skill * c.skill_match + w.experience * c.experience +
    w.availability * c.availability

/-- A candidate together with its computed total score (the `scores.total`
field of `EmployeeRecommendation`). -/
structure ScoredCandidate where
  cand : Candidate
  total : ℚ
deriving DecidableEq, Repr

/-- Modelled from the spec: CandidateScorer (§4.5) attaches the weighted total
to the candidate record. -/
def scoreCandidate (w : Weights) (c : Candidate) : ScoredCandidate :=
  ⟨c, totalScore w c⟩

/-- Modelled from the spec: the ResultCategorizer thresholds (§4.6):
≥ 70 excellent, ≥ 50 good, ≥ 30 fair, otherwise poor. -/
def tierOf (total : ℚ) : Tier :=
  if total ≥ 70 then .excellent
  else if total ≥ 50 then .good
  else if total ≥ 30 then .fair
  else .poor

/-- Modelled from the spec: the ordering within tiers (§4.6): descending
total score, ties broken by candidate id ascending. `candBefore a b` says `a`
comes no later than `b`. -/
def candBefore (a b : ScoredCandidate) : Prop :=
  b.total < a.total ∨ (a.total = b.total ∧ a.cand.id ≤ b.cand.id)

instance : DecidableRel candBefore := fun a b => by
  unfold candBefore
  infer_instance

instance : IsTotal ScoredCandidate candBefore := by
  constructor
  intro a b
  rcases lt_trichotomy a.total b.total with h | h | h
  · exact Or.inr (Or.inl h)
  · rcases Nat.le_total a.cand.id b.cand.id with hi | hi
    · exact Or.inl (Or.inr ⟨h, hi⟩)
    · exact Or.inr (Or.inr ⟨h.symm, hi⟩)
  · exact Or.inl (Or.inl h)

instance : IsTrans ScoredCandidate candBefore := by
  constructor
  intro a b c hab hbc
  rcases hab with h1 | ⟨h1e, h1i⟩ <;> rcases hbc with h2 | ⟨h2e, h2i⟩
  · exact Or.inl (h2.trans h1)
  · exact Or.inl (h2e ▸ h1)
  · exact Or.inl (by rw [h1e]; exact h2)
  · exact Or.inr ⟨h1e.trans h2e, h1i.trans h2i⟩

/-- Modelled from the spec: the categorizer's sort (§4.6). -/
def sortCandidates (l : List ScoredCandidate) : List ScoredCandidate :=
  List.insertionSort candBefore l

/-- The scored candidates of one tier: the scored list filtered by the tier
thresholds (one of the four `categorized_recommendations` lists). -/
def tierList (t : Tier) (l : List ScoredCandidate) : List ScoredCandidate :=
  l.filter (fun c => decide (tierOf c.total = t))

/-- The `summary` field of the `MatchingResult` interface (ProjectMatching.tsx
lines 55-61). -/
structure MatchSummary where
  total_candidates : ℕ
  excellent_matches : ℕ
  good_matches : ℕ
  fair_matches : ℕ
  poor_matches : ℕ
deriving DecidableEq, Repr

/-- The `MatchingResult` interface (ProjectMatching.tsx lines 49-73):
project summary, tier counts, the four ordered tier lists, and the weights
actually applied. -/
structure MatchingResult where
  project : Project
  summary : MatchSummary
  excellent : List ScoredCandidate
  good : List ScoredCandidate
  fair : List ScoredCandidate
  poor : List ScoredCandidate
  weights_used : Weights
deriving DecidableEq, Repr

/-- Modelled from the spec: the engine-side WeightNormalizer (§4.4): positive
sum → divide each input by the sum; all-zero input → substitute the documented
default weights (0.5, 0.3, 0.2). -/
def engineWeights (w : Weights) : Weights :=
  if w.sum > 0 then normalizeWeights w else defaultWeights

/-- Modelled from the spec: the matching engine (§2, §9):
`runMatching(project, candidates, weights) -> MatchingResult` — normalize the
weights, score every candidate, sort, partition into the four tiers and
report the tier counts plus the weights used.  The backend service behind
`POST /projects/:id/match-employees` is not in the sources. -/
def runMatching (p : Project) (pool : List Candidate) (w : Weights) :
    MatchingResult :=
  let wn := engineWeights w
  let sorted := sortCandidates (pool.map (scoreCandidate wn))
  { project := p
    summary :=
      ⟨sorted.length, (tierList .excellent sorted).length,
        (tierList .good sorted).length, (tierList .fair sorted).length,
        (tierList .poor sorted).length⟩
    excellent := tierList .excellent sorted
    good := tierList .good sorted
    fair := tierList .fair sorted
    poor := tierList .poor sorted
    weights_used := wn }

/-- Modelled from the spec: the validation boundary (§7): a negative weight is
a validation error surfaced before any scoring; an empty candidate pool is not
an error (§8 scenario). -/
def runMatchingChecked (p : Project) (pool : List Candidate) (w : Weights) :
    Except String MatchingResult :=
  if w.skill < 0 ∨ w.experience < 0 ∨ w.availability < 0 then
    Except.error "validation error: negative weight"
  else
    Except.ok (runMatching p pool w)

/-- The two components of the weight state that a `handleWeightChange` call for
`t` does not overwrite. -/
def sidePair (t : WeightKind) (w : Weights) : ℚ × ℚ :=
  match t with
  | .skill => (w.experience, w.availability)
  | .experience => (w.skill, w.availability)
  | .availability => (w.skill, w.experience)

end FreeTMS

namespace FreeTMS

/-- C1: for every weight triple of non-negative components with strictly
positive sum, the normalisation of `handleWeightChange` divides each component
by the sum; the result has non-negative components and sums to exactly 1. -/
theorem weight_normalization_correct (w : Weights)
    (hs : 0 ≤ w.skill) (he : 0 ≤ w.experience) (ha : 0 ≤ w.availability)
    (hpos : 0 < w.sum) :
    normalizeWeights w =
      ⟨w.skill / w.sum, w.experience / w.sum, w.availability / w.sum⟩ ∧
    0 ≤ (normalizeWeights w).skill ∧
    0 ≤ (normalizeWeights w).experience ∧
    0 ≤ (normalizeWeights w).availability ∧
    (normalizeWeights w).sum = 1 := by
  have hpos' : 0 < w.skill + w.experience + w.availability := hpos
  rw [normalizeWeights]
  simp only [hpos', if_pos]
  refine ⟨rfl, ?_, ?_, ?_, ?_⟩
  · exact div_nonneg hs hpos'.le
  · exact div_nonneg he hpos'.le
  · exact div_nonneg ha hpos'.le
  · show w.skill / _ + w.experience / _ + w.availability / _ = 1
    field_simp

/-- Witness for C1 at the concrete triple (1, 1, 2). -/
theorem weight_normalization_correct_witness :
    (0 ≤ (1 : ℚ) ∧ 0 ≤ (1 : ℚ) ∧ 0 ≤ (2 : ℚ) ∧
      0 < (Weights.mk 1 1 2).sum) ∧
    (normalizeWeights ⟨1, 1, 2⟩ =
        ⟨1 / (Weights.mk 1 1 2).sum, 1 / (Weights.mk 1 1 2).sum,
          2 / (Weights.mk 1 1 2).sum⟩ ∧
      0 ≤ (normalizeWeights ⟨1, 1, 2⟩).skill ∧
      0 ≤ (normalizeWeights ⟨1, 1, 2⟩).experience ∧
      0 ≤ (normalizeWeights ⟨1, 1, 2⟩).availability ∧
      (normalizeWeights ⟨1, 1, 2⟩).sum = 1) :=
  ⟨⟨by norm_num, by norm_num, by norm_num, by norm_num [Weights.sum]⟩,
    weight_normalization_correct ⟨1, 1, 2⟩ (by norm_num) (by norm_num)
      (by norm_num) (by norm_num [Weights.sum])⟩

/-- C2: on [0,100] the badge classifier assigns exactly one tier by the fixed
thresholds: ≥ 70 excellent (優秀), [50,70) good (良好), [30,50) fair (可),
< 30 poor (不適); so 70 is excellent, 50 good, 30 fair, 29.999 poor. -/
theorem score_tier_thresholds (s : ℚ) (h0 : 0 ≤ s) (h100 : s ≤ 100) :
    (badgeTier s = some Tier.excellent ↔ 70 ≤ s) ∧
    (badgeTier s = some Tier.good ↔ 50 ≤ s ∧ s < 70) ∧
    (badgeTier s = some Tier.fair ↔ 30 ≤ s ∧ s < 50) ∧
    (badgeTier s = some Tier.poor ↔ s < 30) := by
  unfold badgeTier getScoreBadge
  split_ifs with h70 h50 h30
  · refine ⟨⟨fun _ => h70, fun _ => rfl⟩, ?_, ?_, ?_⟩
    · exact ⟨fun hh => absurd hh (by decide), fun hh => absurd hh.2 (by linarith)⟩
    · exact ⟨fun hh => absurd hh (by decide), fun hh => absurd hh.2 (by linarith)⟩
    · exact ⟨fun hh => absurd hh (by decide), fun hh => absurd hh (by linarith)⟩
  · refine ⟨?_, ⟨fun _ => ⟨h50, by linarith⟩, fun _ => rfl⟩, ?_, ?_⟩
    · exact ⟨fun hh => absurd hh (by decide), fun hh => absurd hh h70⟩
    · exact ⟨fun hh => absurd hh (by decide), fun hh => absurd hh.2 (by linarith)⟩
    · exact ⟨fun hh => absurd hh (by decide), fun hh => absurd hh (by linarith)⟩
  · refine ⟨?_, ?_, ⟨fun _ => ⟨h30, by linarith⟩, fun _ => rfl⟩, ?_⟩
    · exact ⟨fun hh => absurd hh (by decide), fun hh => absurd hh h70⟩
    · exact ⟨fun hh => absurd hh (by decide), fun hh => absurd hh.1 h50⟩
    · exact ⟨fun hh => absurd hh (by decide), fun hh => absurd hh (by linarith)⟩
  · refine ⟨?_, ?_, ?_, ⟨fun _ => by linarith, fun _ => rfl⟩⟩
    · exact ⟨fun hh => absurd hh (by decide), fun hh => absurd hh h70⟩
    · exact ⟨fun hh => absurd hh (by decide), fun hh => absurd hh.1 h50⟩
    · exact ⟨fun hh => absurd hh (by decide), fun hh => absurd hh.1 h30⟩

/-- Witness for C2 at the boundary score 70. -/
theorem score_tier_thresholds_witness :
    (0 ≤ (70 : ℚ) ∧ (70 : ℚ) ≤ 100) ∧
    ((badgeTier 70 = some Tier.excellent ↔ (70 : ℚ) ≤ 70) ∧
      (badgeTier 70 = some Tier.good ↔ (50 : ℚ) ≤ 70 ∧ (70 : ℚ) < 70) ∧
      (badgeTier 70 = some Tier.fair ↔ (30 : ℚ) ≤ 70 ∧ (70 : ℚ) < 50) ∧
      (badgeTier 70 = some Tier.poor ↔ (70 : ℚ) < 30)) :=
  ⟨⟨by norm_num, by norm_num⟩,
    score_tier_thresholds 70 (by norm_num) (by norm_num)⟩

/-- C6: the normalisation is idempotent — a non-negative triple that already
sums to 1 is returned unchanged. -/
theorem weight_normalization_idempotent (w : Weights)
    (hs : 0 ≤ w.skill) (he : 0 ≤ w.experience) (ha : 0 ≤ w.availability)
    (hsum : w.sum = 1) :
    normalizeWeights w = w := by
  have h1 : w.skill + w.experience + w.availability = 1 := hsum
  rw [normalizeWeights]
  simp [h1]

/-- Witness for C6 at the default triple (0.5, 0.3, 0.2). -/
theorem weight_normalization_idempotent_witness :
    (0 ≤ defaultWeights.skill ∧ 0 ≤ defaultWeights.experience ∧
      0 ≤ defaultWeights.availability ∧ defaultWeights.sum = 1) ∧
    normalizeWeights defaultWeights = defaultWeights :=
  ⟨⟨by norm_num [defaultWeights], by norm_num [defaultWeights],
      by norm_num [defaultWeights], by norm_num [defaultWeights, Weights.sum]⟩,
    weight_normalization_idempotent defaultWeights
      (by norm_num [defaultWeights]) (by norm_num [defaultWeights])
      (by norm_num [defaultWeights]) (by norm_num [defaultWeights, Weights.sum])⟩

/-- C9: for every score the tier shown by the colour class of `getScoreColor`
agrees with the tier shown by the badge label of `getScoreBadge`. -/
theorem color_badge_tier_agree (s : ℚ) :
    tierOfColor (getScoreColor s) = tierOfLabel (getScoreBadge s).label := by
  rw [getScoreColor, getScoreBadge]
  split_ifs <;> rfl

/-- Counting a scored candidate in one tier's filtered list: its full count if
it belongs to that tier, zero otherwise. -/
lemma count_tierList (t : Tier) (l : List ScoredCandidate) (a : ScoredCandidate) :
    (tierList t l).count a = if tierOf a.total = t then l.count a else 0 := by
  induction l with
  | nil => simp [tierList]
  | cons b l ih =>
    simp only [tierList, List.filter_cons] at ih ⊢
    by_cases hb : tierOf b.total = t <;> by_cases hab : a = b <;>
      simp_all [List.count_cons]

/-- The four tier lists of any scored list are together a permutation of it. -/
lemma tier_partition (l : List ScoredCandidate) :
    (tierList .excellent l ++ tierList .good l ++ tierList .fair l ++
      tierList .poor l).Perm l := by
  rw [List.perm_iff_count]
  intro a
  simp only [List.count_append, count_tierList]
  rcases h : tierOf a.total <;> simp [h]

/-- Membership in a tier list forces the member's tier. -/
lemma mem_tierList {t : Tier} {l : List ScoredCandidate} {c : ScoredCandidate}
    (h : c ∈ tierList t l) : tierOf c.total = t := by
  have := List.of_mem_filter h
  exact of_decide_eq_true this

/-- C3: in every `MatchingResult` the four tier lists partition the scored
candidate pool: together they are a permutation of the scored pool, each list
holds only candidates of its tier, and the list sizes add up to
`summary.total_candidates`, which is the pool size. -/
theorem tier_lists_partition_pool (p : Project) (pool : List Candidate)
    (w : Weights) :
    ((runMatching p pool w).excellent ++ (runMatching p pool w).good ++
        (runMatching p pool w).fair ++ (runMatching p pool w).poor).Perm
      (pool.map (scoreCandidate (engineWeights w))) ∧
    (∀ c ∈ (runMatching p pool w).excellent, tierOf c.total = Tier.excellent) ∧
    (∀ c ∈ (runMatching p pool w).good, tierOf c.total = Tier.good) ∧
    (∀ c ∈ (runMatching p pool w).fair, tierOf c.total = Tier.fair) ∧
    (∀ c ∈ (runMatching p pool w).poor, tierOf c.total = Tier.poor) ∧
    (runMatching p pool w).summary.total_candidates = pool.length ∧
    (runMatching p pool w).excellent.length + (runMatching p pool w).good.length +
        (runMatching p pool w).fair.length + (runMatching p pool w).poor.length =
      (runMatching p pool w).summary.total_candidates := by
  have hsort : (sortCandidates (pool.map (scoreCandidate (engineWeights w)))).Perm
      (pool.map (scoreCandidate (engineWeights w))) :=
    List.perm_insertionSort _ _
  have hpart := tier_partition (sortCandidates (pool.map (scoreCandidate (engineWeights w))))
  refine ⟨?_, ?_, ?_, ?_, ?_, ?_, ?_⟩
  · exact (hpart.trans hsort)
  · exact fun c hc => mem_tierList hc
  · exact fun c hc => mem_tierList hc
  · exact fun c hc => mem_tierList hc
  · exact fun c hc => mem_tierList hc
  · simpa [runMatching] using hsort.length_eq.trans (List.length_map _ _)
  · have hlen := hpart.length_eq
    simp only [List.length_append] at hlen
    simp only [runMatching]
    omega

/-- C5: with sub-scores in [0,100] and a normalized non-negative weight triple
summing to 1, the total score is the weighted sum of the sub-scores and lies
in [0,100]. -/
theorem total_score_formula_and_bounds (c : Candidate) (w : Weights)
    (hs0 : 0 ≤ c.skill_match) (hs1 : c.skill_match ≤ 100)
    (he0 : 0 ≤ c.experience) (he1 : c.experience ≤ 100)
    (ha0 : 0 ≤ c.availability) (ha1 : c.availability ≤ 100)
    (hw1 : 0 ≤ w.skill) (hw2 : 0 ≤ w.experience) (hw3 : 0 ≤ w.availability)
    (hsum : w.sum = 1) :
    totalScore w c =
      w.skill * c.skill_match + w.experience * c.experience +
        w.availability * c.availability ∧
    0 ≤ totalScore w c ∧ totalScore w c ≤ 100 := by
  have hsum' : w.skill + w.experience + w.availability = 1 := hsum
  refine ⟨rfl, ?_, ?_⟩
  · exact add_nonneg (add_nonneg (mul_nonneg hw1 hs0) (mul_nonneg hw2 he0))
      (mul_nonneg hw3 ha0)
  · have h1 : w.skill * c.skill_match ≤ w.skill * 100 :=
      mul_le_mul_of_nonneg_left hs1 hw1
    have h2 : w.experience * c.experience ≤ w.experience * 100 :=
      mul_le_mul_of_nonneg_left he1 hw2
    have h3 : w.availability * c.availability ≤ w.availability * 100 :=
      mul_le_mul_of_nonneg_left ha1 hw3
    unfold totalScore
    nlinarith [h1, h2, h3]

/-- Witness for C5: a candidate with sub-scores (80, 50, 100) under the
default weights. -/
theorem total_score_formula_and_bounds_witness :
    (0 ≤ (80 : ℚ) ∧ (80 : ℚ) ≤ 100 ∧ 0 ≤ (50 : ℚ) ∧ (50 : ℚ) ≤ 100 ∧
      0 ≤ (100 : ℚ) ∧ (100 : ℚ) ≤ 100 ∧ 0 ≤ defaultWeights.skill ∧
      0 ≤ defaultWeights.experience ∧ 0 ≤ defaultWeights.availability ∧
      defaultWeights.sum = 1) ∧
    (totalScore defaultWeights ⟨7, "witness", 80, 50, 100⟩ =
        defaultWeights.skill * 80 + defaultWeights.experience * 50 +
          defaultWeights.availability * 100 ∧
      0 ≤ totalScore defaultWeights ⟨7, "witness", 80, 50, 100⟩ ∧
      totalScore defaultWeights ⟨7, "witness", 80, 50, 100⟩ ≤ 100) :=
  ⟨⟨by norm_num, by norm_num, by norm_num, by norm_num, by norm_num,
      by norm_num, by norm_num [defaultWeights], by norm_num [defaultWeights],
      by norm_num [defaultWeights], by norm_num [defaultWeights, Weights.sum]⟩,
    total_score_formula_and_bounds ⟨7, "witness", 80, 50, 100⟩ defaultWeights
      (by norm_num) (by norm_num) (by norm_num) (by norm_num) (by norm_num)
      (by norm_num) (by norm_num [defaultWeights])
      (by norm_num [defaultWeights]) (by norm_num [defaultWeights])
      (by norm_num [defaultWeights, Weights.sum])⟩

/-- C7: with non-negative weights and an empty candidate pool the engine
succeeds — no validation error — and returns all-zero summary counts and four
empty tier lists. -/
theorem empty_pool_not_error (p : Project) (w : Weights)
    (hw1 : 0 ≤ w.skill) (hw2 : 0 ≤ w.experience) (hw3 : 0 ≤ w.availability) :
    runMatchingChecked p [] w = Except.ok (runMatching p [] w) ∧
    (runMatching p [] w).summary = ⟨0, 0, 0, 0, 0⟩ ∧
    (runMatching p [] w).excellent = [] ∧
    (runMatching p [] w).good = [] ∧
    (runMatching p [] w).fair = [] ∧
    (runMatching p [] w).poor = [] := by
  refine ⟨?_, rfl, rfl, rfl, rfl, rfl⟩
  rw [runMatchingChecked, if_neg]
  push_neg
  exact ⟨hw1, hw2, hw3⟩

/-- Witness for C7 at a concrete project and the default weights. -/
theorem empty_pool_not_error_witness :
    (0 ≤ defaultWeights.skill ∧ 0 ≤ defaultWeights.experience ∧
      0 ≤ defaultWeights.availability) ∧
    (runMatchingChecked ⟨1, "P", ["React"]⟩ [] defaultWeights =
        Except.ok (runMatching ⟨1, "P", ["React"]⟩ [] defaultWeights) ∧
      (runMatching ⟨1, "P", ["React"]⟩ [] defaultWeights).summary =
        ⟨0, 0, 0, 0, 0⟩ ∧
      (runMatching ⟨1, "P", ["React"]⟩ [] defaultWeights).excellent = [] ∧
      (runMatching ⟨1, "P", ["React"]⟩ [] defaultWeights).good = [] ∧
      (runMatching ⟨1, "P", ["React"]⟩ [] defaultWeights).fair = [] ∧
      (runMatching ⟨1, "P", ["React"]⟩ [] defaultWeights).poor = []) :=
  ⟨⟨by norm_num [defaultWeights], by norm_num [defaultWeights],
      by norm_num [defaultWeights]⟩,
    empty_pool_not_error ⟨1, "P", ["React"]⟩ defaultWeights
      (by norm_num [defaultWeights]) (by norm_num [defaultWeights])
      (by norm_num [defaultWeights])⟩

/-- C4 counterexample: starting from the reachable weight state (0, 0, 1) and
moving the availability slider to 0, `handleWeightChange` returns the
un-normalized all-zero triple, not the documented default (0.5, 0.3, 0.2). -/
theorem zero_weights_no_default_in_frontend :
    handleWeightChange ⟨0, 0, 1⟩ WeightKind.availability 0 = ⟨0, 0, 0⟩ ∧
    handleWeightChange ⟨0, 0, 1⟩ WeightKind.availability 0 ≠ defaultWeights := by
  have h : handleWeightChange ⟨0, 0, 1⟩ WeightKind.availability 0 = ⟨0, 0, 0⟩ := by
    rw [handleWeightChange, Weights.update, normalizeWeights]
    norm_num
  refine ⟨h, ?_⟩
  rw [h, defaultWeights]
  intro hc
  have := congrArg Weights.skill hc
  norm_num at this

/-- C4 as amended: when the updated triple sums to zero the frontend
normalization leaves it unchanged (all-zero and un-normalized); the default
triple (0.5, 0.3, 0.2) is only the initial slider state, and it is the
engine-side normalizer of the spec that reports the default as
`weights_used` for an all-zero invocation. -/
theorem zero_weights_left_unchanged (w : Weights) (t : WeightKind) (v : ℚ)
    (h : (w.update t v).sum = 0) (p : Project) (pool : List Candidate) :
    handleWeightChange w t v = w.update t v ∧
    (runMatching p pool ⟨0, 0, 0⟩).weights_used = defaultWeights := by
  constructor
  · have h' : (w.update t v).skill + (w.update t v).experience +
        (w.update t v).availability = 0 := h
    rw [handleWeightChange, normalizeWeights]
    simp [h']
  · have hz : ¬(Weights.mk 0 0 0).sum > 0 := by
      norm_num [Weights.sum]
    simp [runMatching, engineWeights, hz]

/-- Witness for C4's amended statement at the counterexample input. -/
theorem zero_weights_left_unchanged_witness :
    ((Weights.update ⟨0, 0, 1⟩ WeightKind.availability 0).sum = 0) ∧
    (handleWeightChange ⟨0, 0, 1⟩ WeightKind.availability 0 =
        Weights.update ⟨0, 0, 1⟩ WeightKind.availability 0 ∧
      (runMatching ⟨1, "P", []⟩ [] ⟨0, 0, 0⟩).weights_used = defaultWeights) :=
  ⟨by norm_num [Weights.update, Weights.sum],
    zero_weights_left_unchanged ⟨0, 0, 1⟩ WeightKind.availability 0
      (by norm_num [Weights.update, Weights.sum]) ⟨1, "P", []⟩ []⟩

/-- C10: a `handleWeightChange` call that overwrites one component with a
non-negative value, with positive resulting raw total, keeps the other two
components in their original proportion: stated division-free, the
cross-products of the unadjusted pair before and after agree. -/
theorem weight_change_keeps_side_proportion (w : Weights) (t : WeightKind)
    (v : ℚ) (hv : 0 ≤ v) (hpos : 0 < (w.update t v).sum) :
    (sidePair t (handleWeightChange w t v)).1 * (sidePair t w).2 =
      (sidePair t (handleWeightChange w t v)).2 * (sidePair t w).1 := by
  cases t <;>
  · have hT : 0 < (w.update _ v).skill + (w.update _ v).experience +
        (w.update _ v).availability := hpos
    rw [handleWeightChange, normalizeWeights]
    simp only [Weights.update] at hT ⊢
    rw [if_pos hT]
    simp only [sidePair]
    ring

/-- Distinct scored candidates of a pool with no duplicate ids cannot satisfy
`candBefore` in both directions. -/
lemma candBefore_asymm_of_id_ne {a b : ScoredCandidate}
    (hab : candBefore a b) (hba : candBefore b a)
    (hid : a.cand.id ≠ b.cand.id) : False := by
  rcases hab with h1 | ⟨h1e, h1i⟩ <;> rcases hba with h2 | ⟨h2e, h2i⟩
  · exact absurd h1 (lt_asymm h2)
  · exact absurd (h2e ▸ h1) (lt_irrefl _)
  · exact absurd (h1e ▸ h2) (lt_irrefl _)
  · exact hid (Nat.le_antisymm h1i h2i)

/-- Two `candBefore`-sorted permutations of each other whose candidate ids are
duplicate-free are equal: the categorizer's ordering is uniquely determined. -/
lemma sorted_perm_nodup_id_eq :
    ∀ {l₁ l₂ : List ScoredCandidate}, l₁.Perm l₂ →
      l₁.Sorted candBefore → l₂.Sorted candBefore →
      (l₁.map fun c => c.cand.id).Nodup → l₁ = l₂ := by
  intro l₁
  induction l₁ with
  | nil => intro l₂ hp _ _ _; exact hp.nil_eq
  | cons a t ih =>
    intro l₂ hp hs₁ hs₂ hnd
    cases l₂ with
    | nil => exact absurd hp.length_eq (by simp)
    | cons b t₂ =>
      have hab : a = b := by
        by_contra hne
        have ha2 : a ∈ b :: t₂ := hp.mem_iff.mp (List.mem_cons_self a t)
        have ha' : a ∈ t₂ := by
          rcases List.mem_cons.mp ha2 with h | h
          · exact absurd h hne
          · exact h
        have hb1 : b ∈ a :: t := hp.symm.mem_iff.mp (List.mem_cons_self b t₂)
        have hb' : b ∈ t := by
          rcases List.mem_cons.mp hb1 with h | h
          · exact absurd h.symm hne
          · exact h
        have h1 : candBefore a b := (List.sorted_cons.mp hs₁).1 b hb'
        have h2 : candBefore b a := (List.sorted_cons.mp hs₂).1 a ha'
        have hid : a.cand.id ≠ b.cand.id := by
          intro he
          exact hne (List.inj_on_of_nodup_map hnd (List.mem_cons_self a t)
            (List.mem_cons_of_mem a hb') he)
        exact candBefore_asymm_of_id_ne h1 h2 hid
      subst hab
      have ht : t.Perm t₂ := hp.cons_inv
      have hnd' : (t.map fun c => c.cand.id).Nodup := by
        simpa using List.Nodup.of_cons (by simpa using hnd)
      rw [ih ht (List.sorted_cons.mp hs₁).2 (List.sorted_cons.mp hs₂).2 hnd']

/-- C8: the engine is a pure function of (project, pool, weights); moreover,
for a pool without duplicate candidate ids, any reordering of the same
candidate pool snapshot produces the identical `MatchingResult` — identical
scores and identical ordering within every tier — because ties are broken by
the deterministic candidate-id key.  Identical inputs are the `Perm.refl`
instance of this statement. -/
theorem matching_deterministic (p : Project) (w : Weights)
    (pool₁ pool₂ : List Candidate) (hperm : pool₁.Perm pool₂)
    (hnd : (pool₁.map Candidate.id).Nodup) :
    runMatching p pool₁ w = runMatching p pool₂ w := by
  have key : sortCandidates (pool₁.map (scoreCandidate (engineWeights w))) =
      sortCandidates (pool₂.map (scoreCandidate (engineWeights w))) := by
    apply sorted_perm_nodup_id_eq
    · exact (List.perm_insertionSort _ _).trans
        ((hperm.map _).trans (List.perm_insertionSort _ _).symm)
    · exact List.sorted_insertionSort _ _
    · exact List.sorted_insertionSort _ _
    · have hmap : ((pool₁.map (scoreCandidate (engineWeights w))).map
          fun c => c.cand.id) = pool₁.map Candidate.id := by
        rw [List.map_map]
        rfl
      have hperm' : ((sortCandidates (pool₁.map (scoreCandidate (engineWeights w)))).map
          fun c => c.cand.id).Perm (pool₁.map Candidate.id) := by
        rw [← hmap]
        exact (List.perm_insertionSort _ _).map _
      exact hperm'.nodup_iff.mpr hnd
  simp only [runMatching, key]

/-- Witness for C8: a two-candidate pool and its transposition. -/
theorem matching_deterministic_witness :
    ((List.Perm
        [Candidate.mk 1 "A" 90 80 70, Candidate.mk 2 "B" 60 50 40]
        [Candidate.mk 2 "B" 60 50 40, Candidate.mk 1 "A" 90 80 70]) ∧
      (([Candidate.mk 1 "A" 90 80 70, Candidate.mk 2 "B" 60 50 40].map
          Candidate.id).Nodup)) ∧
    runMatching ⟨1, "P", ["React"]⟩
        [Candidate.mk 1 "A" 90 80 70, Candidate.mk 2 "B" 60 50 40]
        defaultWeights =
      runMatching ⟨1, "P", ["React"]⟩
        [Candidate.mk 2 "B" 60 50 40, Candidate.mk 1 "A" 90 80 70]
        defaultWeights :=
  ⟨⟨List.Perm.swap _ _ _, by simp⟩,
    matching_deterministic ⟨1, "P", ["React"]⟩ defaultWeights _ _
      (List.Perm.swap _ _ _) (by simp)⟩

/-- Witness for C10: adjusting the skill slider to 1 from the default state. -/
theorem weight_change_keeps_side_proportion_witness :
    (0 ≤ (1 : ℚ) ∧ 0 < (defaultWeights.update WeightKind.skill 1).sum) ∧
    (sidePair WeightKind.skill
          (handleWeightChange defaultWeights WeightKind.skill 1)).1 *
        (sidePair WeightKind.skill defaultWeights).2 =
      (sidePair WeightKind.skill
          (handleWeightChange defaultWeights WeightKind.skill 1)).2 *
        (sidePair WeightKind.skill defaultWeights).1 :=
  ⟨⟨by norm_num, by norm_num [defaultWeights, Weights.update, Weights.sum]⟩,
    weight_change_keeps_side_proportion defaultWeights WeightKind.skill 1
      (by norm_num) (by norm_num [defaultWeights, Weights.update, Weights.sum])⟩

end FreeTMS
